import Mathlib

/-!
Verification development for the per-host KVM guest-instance controller
(`SKVMGuestInstance` in package `guestman`): script generation (start/stop),
qemu command-line unification for live migration, memory-descriptor
reconciliation, machine-type fix-up, USB input device assembly and qemu
binary resolution.

The Go source is embedded shallowly: every Go function the claims touch is
translated into an executable Lean definition.  Go maps become association
lists; a Go `range` over a map is modelled by quantifying over the iteration
sequence (Go randomises map iteration order, so a single call sees one
arbitrary permutation of the entries).  Collaborator code that lives in the
repository but outside the examined sources (the `qemutils` command-line
type, the vendored diff-match-patch library, the `qemu` option generator and
the shared constant tables) is modelled from the specification and marked as
such in the corresponding doc comments.
-/

namespace GuestMan

/-- Modelled from the spec: OS name constant from the repository's `qemu`
package (declared outside the examined sources). -/
def OS_NAME_LINUX : String := "Linux"

/-- Modelled from the spec: OS name constant from the `qemu` package. -/
def OS_NAME_WINDOWS : String := "Windows"

/-- Modelled from the spec: OS name constant from the `qemu` package. -/
def OS_NAME_MACOS : String := "macOS"

/-- Modelled from the spec: OS name constant from the `qemu` package. -/
def OS_NAME_ANDROID : String := "Android"

/-- Modelled from the spec: OS name constant from the `qemu` package. -/
def OS_NAME_CIRROS : String := "Cirros"

/-- Modelled from the spec: OS name constant from the `qemu` package. -/
def OS_NAME_OPENWRT : String := "OpenWrt"

/-- Modelled from the spec: machine-type constant from the `api` package. -/
def VM_MACHINE_TYPE_PC : String := "pc"

/-- Modelled from the spec: machine-type constant from the `api` package. -/
def VM_MACHINE_TYPE_Q35 : String := "q35"

/-- Modelled from the spec: machine-type constant from the `api` package. -/
def VM_MACHINE_TYPE_ARM_VIRT : String := "virt"

/-- Modelled from the spec: UEFI BIOS mode constant from the `qemu` package. -/
def BIOS_UEFI : String := "UEFI"

/-- Modelled from the spec: the VFIO NIC driver constant from the `api`
package. -/
def NETWORK_DRIVER_VFIO : String := "vfio-pci"

/-- Modelled from the spec: fixed offset added to the VNC port to obtain the
HMP monitor port (constant declared outside the examined sources). -/
def MONITOR_PORT_BASE : Int := 55900

/-- Boolean prefix test on character lists. -/
def listIsPrefixB : List Char → List Char → Bool
  | [], _ => true
  | _ :: _, [] => false
  | a :: as, b :: bs => a == b && listIsPrefixB as bs

/-- Boolean model of Go `strings.HasPrefix`. -/
def strStartsWithB (s pre : String) : Bool := listIsPrefixB pre.data s.data

/-- Boolean infix test on character lists. -/
def listContainsB (pat : List Char) : List Char → Bool
  | [] => listIsPrefixB pat []
  | l@(_ :: rest) => listIsPrefixB pat l || listContainsB pat rest

/-- Boolean model of Go `strings.Contains`. -/
def strContainsB (s pat : String) : Bool := listContainsB pat.data s.data

/-- Modelled from the spec: a scalar JSON value, as used in the free-form
`ExtraOptions` map of the descriptor (the `jsonutils` package is repository
code outside the examined sources). -/
inductive JSONScalar where
  | str (s : String)
  | num (n : Int)
deriving DecidableEq, Repr

/-- Modelled from the spec: a JSON value stored under one `ExtraOptions` key;
the source distinguishes `*jsonutils.JSONArray` values from all others. -/
inductive JSONVal where
  | scalar (v : JSONScalar)
  | arr (xs : List JSONScalar)
deriving DecidableEq, Repr

/-- Modelled from the spec: `jsonutils` renders a string JSON value quoted
and a number bare (the `.String()` method used by `extraOptions`). -/
def JSONScalar.render : JSONScalar → String
  | .str s => "\"" ++ s ++ "\""
  | .num n => toString n

/-- Fragment `extraOptions` emits for one `ExtraOptions` entry: one
`" -<key> <value>"` flag per array element for a JSON array, a single flag
otherwise (from the `switch jsonV := v.(type)` in the source). -/
def renderExtraOption (k : String) (v : JSONVal) : String :=
  match v with
  | .arr xs => xs.foldl (fun cmd x => cmd ++ " -" ++ k ++ " " ++ x.render) ""
  | .scalar x => " -" ++ k ++ " " ++ x.render

/-- Embedding of `extraOptions`: starting from `" "`, append the fragment of
every `ExtraOptions` entry.  `entries` is the sequence in which one Go
`range` over the map presents the entries; Go leaves that order unspecified
and randomises it per iteration, so two calls on the same map may pass two
different permutations of the same entry list. -/
def extraOptions (entries : List (String × JSONVal)) : String :=
  entries.foldl (fun cmd kv => cmd ++ renderExtraOption kv.1 kv.2) " "

/-- Embedding of `desc.SGuestNetwork`, restricted to the fields the examined
code reads. -/
structure SGuestNetwork where
  ifname : String
  mac : String
  ip : String
  bridge : String
  driver : String
deriving DecidableEq, Repr

/-- Embedding of the guest descriptor (`desc.SGuestDesc`), restricted to the
fields the examined code reads.  `metadata` embeds the string-keyed metadata
map (keys unique), `usbId` the `Desc.Usb.Id` controller id. -/
structure GuestDesc where
  uuid : String
  mem : Int
  cpu : Nat
  machine : String
  bios : String
  vdi : String
  metadata : List (String × String)
  nics : List SGuestNetwork
  usbId : String
deriving DecidableEq, Repr

/-- Go two-valued map lookup `v, ok := m[k]` on the metadata map. -/
def metadataLookup (d : GuestDesc) (k : String) : Option String :=
  (d.metadata.find? (fun kv => kv.1 == k)).map (fun kv => kv.2)

/-- Go one-valued map lookup `m[k]` on the metadata map (zero value `""`
when the key is absent). -/
def metadataGet (d : GuestDesc) (k : String) : String :=
  (metadataLookup d k).getD ""

/-- Embedding of `GetOsName`: metadata `os_name`, defaulting to Linux. -/
def getOsName (d : GuestDesc) : String :=
  (metadataLookup d "os_name").getD OS_NAME_LINUX

/-- Embedding of `getOsDistribution`. -/
def getOsDistribution (d : GuestDesc) : String := metadataGet d "os_distribution"

/-- Embedding of `getOsVersion`. -/
def getOsVersion (d : GuestDesc) : String := metadataGet d "os_version"

/-- Embedding of `disableUsbKbd`. -/
def disableUsbKbd (d : GuestDesc) : Bool := metadataGet d "disable_usb_kbd" == "true"

/-- Embedding of `isMemcleanEnabled`. -/
def isMemcleanEnabled (d : GuestDesc) : Bool := metadataGet d "enable_memclean" == "true"

/-- Embedding of `IsOldWindows`: a Windows guest whose metadata os version
has length above one and starts with `"5."`. -/
def IsOldWindows (d : GuestDesc) : Bool :=
  getOsName d == OS_NAME_WINDOWS
    && decide (1 < (getOsVersion d).length)
    && (getOsVersion d).take 2 == "5."

/-- Embedding of `isWindows10`: a Windows guest whose lower-cased metadata
distribution contains `"windows 10"`. -/
def isWindows10 (d : GuestDesc) : Bool :=
  getOsName d == OS_NAME_WINDOWS
    && strContainsB (getOsDistribution d).toLower "windows 10"

/-- Host capability flags consumed by the renderer (read-only capability
handle backing `s.manager.host`). -/
structure HostCaps where
  isAarch64 : Bool
  hugepagesEnabled : Bool
  isKvmSupport : Bool
  isX86 : Bool
  hugepageSizeKb : Int
deriving DecidableEq, Repr

/-- Embedding of `fixGuestMachineType`: force Q35/UEFI for macOS guests,
then force ARM-virt/UEFI on aarch64 hosts (machine rewritten when it is
empty, generic PC or Q35). -/
def fixGuestMachineType (host : HostCaps) (d : GuestDesc) : GuestDesc :=
  let d1 :=
    if getOsName d == OS_NAME_MACOS then
      { d with machine := VM_MACHINE_TYPE_Q35, bios := BIOS_UEFI }
    else d
  if host.isAarch64 then
    let d2 :=
      if d1.machine == "" || d1.machine == VM_MACHINE_TYPE_PC
          || d1.machine == VM_MACHINE_TYPE_Q35 then
        { d1 with machine := VM_MACHINE_TYPE_ARM_VIRT }
      else d1
    { d2 with bios := BIOS_UEFI }
  else d1

/-- Opaque-to-us CPU descriptor produced by the architecture strategy; its
contents are irrelevant to the examined claims. -/
structure CpuDesc where
  cpus : Nat
  accel : String
deriving DecidableEq, Repr

/-- Embedding of `initCpuDesc`: run the machine-type fix-up on the
descriptor, then ask the architecture strategy (`archMan.GenerateCpuDesc`,
passed in as `gen`) for a CPU descriptor of the fixed descriptor.  Returns
the fixed descriptor together with the generated CPU descriptor. -/
def initCpuDesc (gen : Nat → GuestDesc → Except String CpuDesc)
    (host : HostCaps) (d : GuestDesc) : Except String (GuestDesc × CpuDesc) :=
  let fixed := fixGuestMachineType host d
  match gen fixed.cpu fixed with
  | .error e => .error e
  | .ok c => .ok (fixed, c)

/-- Embedding of `getNicDownScriptPath`: per-NIC down-script path named from
the bridge device name (`bridgeOf` models `GetBridgeDev(..).Bridge()`) and
the interface name, under the guest's home directory. -/
def getNicDownScriptPath (homeDir : String) (bridgeOf : String → String)
    (n : SGuestNetwork) : String :=
  homeDir ++ "/if-down-" ++ bridgeOf n.bridge ++ "-" ++ n.ifname ++ ".sh"

/-- One down-script invocation line, `"<downscript> <ifname>"`, as emitted by
both `generateStartScript` and `generateStopScript`. -/
def nicDownScriptLine (homeDir : String) (bridgeOf : String → String)
    (n : SGuestNetwork) : String :=
  getNicDownScriptPath homeDir bridgeOf n ++ " " ++ n.ifname

/-- Embedding of the NIC down-script loop shared by `generateStartScript`
and `generateStopScript`: iterate over the descriptor's NICs, `continue` on
VFIO-driver NICs, emit one invocation line for every other NIC. -/
def nicDownScriptLines (homeDir : String) (bridgeOf : String → String)
    (nics : List SGuestNetwork) : List String :=
  nics.foldl
    (fun acc n =>
      if n.driver == NETWORK_DRIVER_VFIO then acc
      else acc ++ [nicDownScriptLine homeDir bridgeOf n])
    []

/-- Modelled from the spec: `qemutils.GetQemu` (repository code outside the
examined sources) resolves a requested version to a versioned install path
when that version is installed, returns the default binary path for the
empty version, and the empty string when the requested version is absent. -/
def getQemu (installed : List String) (version : String) : String :=
  if version == "" then "/usr/bin/qemu-system-x86_64"
  else if installed.contains version then
    "/usr/local/qemu-" ++ version ++ "/bin/qemu-system-x86_64"
  else ""

/-- Embedding of the qemu version selection in `generateStartScript`: the
runtime override wins over the configured default, and the value `"latest"`
is cleared to the empty version before any lookup. -/
def selectQemuVersion (dataVer : Option String) (defaultVer : String) : String :=
  let v := match dataVer with | some x => x | none => defaultVer
  if v == "latest" then "" else v

/-- Embedding of the binary resolution in `generateStartScript`: look the
selected version up, falling back to the empty-version lookup when the
versioned lookup returns nothing. -/
def resolveQemuCmd (installed : List String) (ver : String) : String :=
  let q := getQemu installed ver
  if q.length == 0 then getQemu installed "" else q

/-- Embedding of the KVM-argument line of the start script: `-enable-kvm`
with host KVM support (unless disabled), `-no-kvm` on x86 hosts without it,
empty otherwise. -/
def kvmArgLine (host : HostCaps) (disableKVM : Bool) : String :=
  if host.isKvmSupport && !disableKVM then "QEMU_CMD_KVM_ARG=-enable-kvm"
  else if host.isX86 then "QEMU_CMD_KVM_ARG=-no-kvm"
  else "QEMU_CMD_KVM_ARG="

/-- Embedding of the leading shell lines of `generateStartScript`, one list
element per emitted line, in source order: NIC down-script invocations,
conditional hugepage mount commands, the sleep and VNC-marker echo, the
disk/SR-IOV collaborator scripts (passed in, their contents are produced
outside the examined code), the state-file and PID-file assignments and the
hypervisor binary resolution.  The helper-function block and the `CMD`
assembly that follow in the source are modelled separately
(`composedQemuCommand`). -/
def generateStartScriptLines (homeDir : String) (bridgeOf : String → String)
    (d : GuestDesc) (host : HostCaps) (vncPort : Int)
    (vncFilePath pidFilePath stateFilePrefix : String)
    (diskScripts sriovScripts : List String)
    (installed : List String) (dataQemuVersion : Option String)
    (defaultQemuVersion : String) (disableKVM : Bool) : List String :=
  nicDownScriptLines homeDir bridgeOf d.nics
    ++ (if host.hugepagesEnabled then
          ["mkdir -p /dev/hugepages/" ++ d.uuid,
           "mount -t hugetlbfs -o pagesize=" ++ toString host.hugepageSizeKb
             ++ "K,size=" ++ toString d.mem ++ "M hugetlbfs-" ++ d.uuid
             ++ " /dev/hugepages/" ++ d.uuid]
        else [])
    ++ ["sleep 1",
        "echo " ++ toString vncPort ++ " > " ++ vncFilePath]
    ++ diskScripts
    ++ sriovScripts
    ++ ["STATE_FILE=`ls -d " ++ stateFilePrefix ++ "* | head -n 1`",
        "PID_FILE=" ++ pidFilePath,
        "DEFAULT_QEMU_CMD=\x27"
          ++ resolveQemuCmd installed (selectQemuVersion dataQemuVersion defaultQemuVersion)
          ++ "\x27",
        "QEMU_CMD=$DEFAULT_QEMU_CMD",
        kvmArgLine host disableKVM]

/-- Embedding of the USB input device assembly in `generateStartScript`:
aarch64 hosts always get the fixed tablet and keyboard pair bound to the
guest's USB controller id; otherwise a keyboard is added unless the guest is
OpenWrt/Cirros, old Windows, Windows 10 or has the keyboard disabled, and
Android guests get a mouse while all but old Windows get a tablet. -/
def usbInputDevices (aarch64 : Bool) (d : GuestDesc) : List String :=
  if aarch64 then
    ["usb-tablet,id=input0,bus=" ++ d.usbId ++ ".0,port=1",
     "usb-kbd,id=input1,bus=" ++ d.usbId ++ ".0,port=2"]
  else
    (if !(getOsDistribution d == OS_NAME_OPENWRT
            || getOsDistribution d == OS_NAME_CIRROS)
        && !IsOldWindows d && !isWindows10 d && !disableUsbKbd d then
      ["usb-kbd"]
     else [])
      ++ (if getOsName d == OS_NAME_ANDROID then ["usb-mouse"]
          else if !IsOldWindows d then ["usb-tablet"] else [])

/-- Embedding of the fixed body of `generateStopScript` before the NIC
down-script loop, one list element per emitted shell line, in source order:
marker-file assignments, the graceful-quit block, the PID kill block and the
hugepage unmount loop. -/
def stopScriptBody (vncFilePath pidFilePath uuid : String) : List String :=
  ["VNC_FILE=" ++ vncFilePath,
   "PID_FILE=" ++ pidFilePath,
   "if [ \"$1\" != \"--force\" ] && [ -f $VNC_FILE ]; then",
   "  VNC=`cat $VNC_FILE`",
   "  MON=$(($VNC + " ++ toString MONITOR_PORT_BASE ++ "))",
   "  echo quit | nc -w 1 127.0.0.1 $MON > /dev/null",
   "  sleep 1",
   "  echo \"Remove VNC $VNC_FILE\"",
   "  rm -f $VNC_FILE",
   "fi",
   "if [ -f $PID_FILE ]; then",
   "  PID=`cat $PID_FILE`",
   "  ps -p $PID > /dev/null",
   "  if [ $? -eq 0 ]; then",
   "    echo \"Kill process $PID\"",
   "    kill -9 $PID > /dev/null 2>&1",
   "  fi",
   "  echo \"Remove PID $PID_FILE\"",
   "  rm -f $PID_FILE",
   "fi",
   "for d in $(ls -d /dev/hugepages/" ++ uuid ++ "*)",
   "do",
   "  if [ -d $d ]; then",
   "    umount $d",
   "    rm -rf $d",
   "  fi",
   "done"]

/-- Embedding of `generateStopScript`: the fixed body followed by the NIC
down-script invocations. -/
def generateStopScript (vncFilePath pidFilePath homeDir : String)
    (bridgeOf : String → String) (d : GuestDesc) : List String :=
  stopScriptBody vncFilePath pidFilePath d.uuid
    ++ nicDownScriptLines homeDir bridgeOf d.nics

/-- Modelled from the spec: one option of a `qemutils.Cmdline` (repository
code outside the examined sources): a key and the value tokens following it
on the command line. -/
structure QemuOption where
  key : String
  value : List String
deriving DecidableEq, Repr

/-- Modelled from the spec: one lexical token of a qemu command-line text —
either an option introducer carrying its key, or a plain value token.  A
command-line text is an ordered token list. -/
inductive Tok where
  | opt (key : String)
  | arg (s : String)
deriving DecidableEq, Repr

/-- Serialisation of one option back to command-line tokens. -/
def serializeOpt (o : QemuOption) : List Tok :=
  Tok.opt o.key :: o.value.map Tok.arg

/-- Modelled from the spec: `Cmdline.ToString`, serialising the ordered
option sequence back to command-line text. -/
def serializeCmdline (l : List QemuOption) : List Tok :=
  l.flatMap serializeOpt

/-- Parser loop: collect value tokens into the pending option, start a new
option at every option introducer. -/
def parseCmdlineAux (k : String) (acc : List String) : List Tok → List QemuOption
  | [] => [⟨k, acc⟩]
  | Tok.opt k2 :: ts => ⟨k, acc⟩ :: parseCmdlineAux k2 [] ts
  | Tok.arg s :: ts => parseCmdlineAux k (acc ++ [s]) ts

/-- Modelled from the spec: `qemutils.NewCmdline`, parsing command-line text
into the ordered option sequence; a leading value token with no option to
attach to is a parse error. -/
def parseCmdlineTokens : List Tok → Except String (List QemuOption)
  | [] => .ok []
  | Tok.arg s :: _ => .error ("unexpected leading token " ++ s)
  | Tok.opt k :: ts => .ok (parseCmdlineAux k [] ts)

/-- Option value as a single string, as `qemutils.Option.Value` holds it. -/
def optValueStr (o : QemuOption) : String := " ".intercalate o.value

/-- Embedding of the filter callback in `parseCmdline`: the whitelisted
dynamic options — an incoming option whose value starts with `tcp:` or
`defer`, the vnc/spice/daemonize options, and chardev options for the
`hmqmondev`/`hmpmondev`/`qmqmondev`/`qmpmondev` monitor sockets. -/
def isDynamicOpt (o : QemuOption) : Bool :=
  if o.key == "incoming" then
    strStartsWithB (optValueStr o) "tcp:" || strStartsWithB (optValueStr o) "defer"
  else if o.key == "vnc" || o.key == "spice" || o.key == "daemonize" then true
  else if o.key == "chardev" then
    strStartsWithB (optValueStr o) "socket,id=hmqmondev"
      || strStartsWithB (optValueStr o) "socket,id=hmpmondev"
      || strStartsWithB (optValueStr o) "socket,id=qmqmondev"
      || strStartsWithB (optValueStr o) "socket,id=qmpmondev"
  else false

/-- Embedding of `parseCmdline`: parse the text, then remove the whitelisted
dynamic options from the command line, collecting them (in order) into the
second component. -/
def parseCmdline (toks : List Tok) :
    Except String (List QemuOption × List QemuOption) :=
  match parseCmdlineTokens toks with
  | .error e => .error e
  | .ok cl => .ok (cl.filter (fun o => !(isDynamicOpt o)), cl.filter isDynamicOpt)

/-- Modelled from the spec: one edit of a diff-match-patch diff. -/
inductive DiffEdit where
  | equal (toks : List Tok)
  | delete (toks : List Tok)
  | insert (toks : List Tok)
deriving DecidableEq, Repr

/-- Modelled from the spec: `DiffMain cur src` computes a diff decomposition
that rewrites `cur` into `src`; the trivial decomposition is one valid
output and is extensionally equivalent to any finer one when the patch is
applied to the unchanged `cur` (as `_unifyMigrateQemuCmdline` does). -/
def diffMain (cur src : List Tok) : List DiffEdit :=
  [.delete cur, .insert src]

/-- Modelled from the spec: applying a patch built from a diff onto a text:
equal runs are kept, deleted runs skipped, inserted runs emitted. -/
def patchApply : List DiffEdit → List Tok → List Tok
  | [], rest => rest
  | .equal e :: ds, t => e ++ patchApply ds (t.drop e.length)
  | .delete d :: ds, t => patchApply ds (t.drop d.length)
  | .insert i :: ds, t => i ++ patchApply ds t

/-- Embedding of `_unifyMigrateQemuCmdline`: diff the current text against
the source text, build a patch from the diff and apply it onto the current
text. -/
def unifyMigrateQemuCmdlineRaw (cur src : List Tok) : List Tok :=
  patchApply (diffMain cur src) cur

/-- Embedding of `unifyMigrateQemuCmdline`: parse both sides (filtering out
each side's dynamic options), patch the current filtered text into the
source filtered text, re-parse it, and re-append the current host's dynamic
options (`AddOption` appends at the end). -/
def unifyMigrateQemuCmdline (cur src : List Tok) : Except String (List Tok) :=
  match parseCmdline cur with
  | .error e => .error e
  | .ok (curCl, curFilterOpts) =>
    match parseCmdline src with
    | .error e => .error e
    | .ok (srcCl, _) =>
      let unifyStr := unifyMigrateQemuCmdlineRaw (serializeCmdline curCl) (serializeCmdline srcCl)
      match parseCmdline unifyStr with
      | .error e => .error e
      | .ok (unifyCl, _) =>
        .ok (serializeCmdline (unifyCl ++ curFilterOpts))

/-- Runtime state of the state-file glob when the start script executes: no
match, a directory holding a `content` stream, or a plain file. -/
inductive StateFileKind where
  | noFile
  | dirWithContent
  | plainFile
deriving DecidableEq, Repr

/-- Embedding of the shell `if`/`elif` at the end of `generateStartScript`:
the exec-form incoming clause appended to `$CMD`, chosen by the state-file
kind (at most one of the two branches fires). -/
def incomingExecClause : StateFileKind → List String
  | .noFile => []
  | .dirWithContent => ["--incoming \"exec: cat $STATE_FILE/content\""]
  | .plainFile => ["--incoming \"exec: cat $STATE_FILE\""]

/-- Modelled from the spec: `qemu.GenerateStartOptions` (repository code
outside the examined sources), restricted to the migration-incoming clause:
a migration-incoming launch appends one TCP listen-address incoming option
after the other options (`baseOpts`, which carry no incoming clause). -/
def generateStartOptions (baseOpts : List String) (needMigrate : Bool)
    (port : Nat) : List String :=
  baseOpts ++ (if needMigrate then ["-incoming tcp:0.0.0.0:" ++ toString port] else [])

/-- Recogniser for an incoming clause of either spelling. -/
def isIncomingClause (s : String) : Bool :=
  strStartsWithB s "-incoming" || strStartsWithB s "--incoming"

/-- The composed hypervisor command: the rendered qemu options followed by
the exec-form incoming clause the shell appends when a state file exists. -/
def composedQemuCommand (baseOpts : List String) (needMigrate : Bool)
    (port : Nat) (sf : StateFileKind) : List String :=
  generateStartOptions baseOpts needMigrate port ++ incomingExecClause sf

/-- Number of incoming clauses in a composed command. -/
def countIncoming (cmd : List String) : Nat :=
  (cmd.filter isIncomingClause).length

/-- Embedding of `monitor.MemoryDeviceInfo.Data`: hot-plugged memory device
data as reported by the hypervisor (size in bytes). -/
structure MemoryDeviceData where
  id : Option String
  size : Nat
  memdev : String
deriving DecidableEq, Repr

/-- Embedding of `monitor.MemoryDeviceInfo`. -/
structure MemoryDeviceInfo where
  type : String
  data : MemoryDeviceData
deriving DecidableEq, Repr

/-- Embedding of `desc.SMemDevice`. -/
structure SMemDevice where
  devType : String
  id : String
deriving DecidableEq, Repr

/-- Embedding of `desc.NewObject`: a qemu object with type, id and options. -/
structure SMemObject where
  objType : String
  id : String
  options : List (String × String)
deriving DecidableEq, Repr

/-- Embedding of `desc.SMemSlot`: one hot-pluggable DIMM-style memory
backend (size in MB). -/
structure SMemSlot where
  sizeMB : Nat
  memObj : SMemObject
  memDev : SMemDevice
deriving DecidableEq, Repr

/-- Embedding of the guest memory descriptor (`Desc.MemDesc`): the base
memory object size, the base backend object and the hot-plug slots. -/
structure SGuestMem where
  sizeMB : Int
  mem : SMemObject
  memSlots : List SMemSlot
deriving DecidableEq, Repr

/-- Splitter for `pathBase`: cut a character list at every separator. -/
def splitChars (sep : Char) : List Char → List (List Char)
  | [] => [[]]
  | c :: rest =>
    match splitChars sep rest with
    | [] => if c == sep then [[], []] else [[c]]
    | g :: gs => if c == sep then [] :: g :: gs else (c :: g) :: gs

/-- Model of Go `path.Base`: the last nonempty path component. -/
def pathBase (s : String) : String :=
  match ((splitChars '/' s.data).filter (fun g => !(g.isEmpty))).getLast? with
  | some g => ⟨g⟩
  | none => "."

/-- Embedding of `initMemDesc`: build the base memory backend object —
hugepage-file-backed, memfd-backed or anonymous-RAM-backed by host and
guest flags — of the given size, with no slots yet. -/
def initMemDesc (hugepages memclean : Bool) (uuid : String)
    (memSizeMB : Int) : SGuestMem :=
  if hugepages then
    ⟨memSizeMB,
     ⟨"memory-backend-file", "mem",
      [("mem-path", "/dev/hugepages/" ++ uuid),
       ("size", toString memSizeMB ++ "M"),
       ("share", "on"), ("prealloc", "on")]⟩,
     []⟩
  else if memclean then
    ⟨memSizeMB,
     ⟨"memory-backend-memfd", "mem",
      [("size", toString memSizeMB ++ "M"), ("share", "on"), ("prealloc", "on")]⟩,
     []⟩
  else
    ⟨memSizeMB,
     ⟨"memory-backend-ram", "mem", [("size", toString memSizeMB ++ "M")]⟩,
     []⟩

/-- Embedding of the reconstruction loop of `initMemDescFromMemoryInfo`:
walk the reported device list, rejecting any device that is not a `dimm` or
lacks an id, subtracting each dimm's size (bytes scaled to MB) from the
remaining memory and collecting a `SMemSlot` per device. -/
def collectMemSlots (objType : String) :
    Int → List MemoryDeviceInfo → Except String (Int × List SMemSlot)
  | m, [] => .ok (m, [])
  | m, info :: rest =>
    match info.data.id with
    | none => .error ("unsupported memory device type " ++ info.type)
    | some devId =>
      if info.type != "dimm" then
        .error ("unsupported memory device type " ++ info.type)
      else
        let sMB := info.data.size / 1024 / 1024
        match collectMemSlots objType (m - (sMB : Int)) rest with
        | .error e => .error e
        | .ok (m2, slots) =>
          .ok (m2,
            ⟨sMB, ⟨objType, pathBase info.data.memdev, []⟩,
             ⟨"pc-dimm", devId⟩⟩ :: slots)

/-- Backend object type selection at the top of `initMemDescFromMemoryInfo`:
hugepage file backend, memfd backend or anonymous RAM backend. -/
def memBackendObjType (hugepages memclean : Bool) : String :=
  if hugepages then "memory-backend-file"
  else if memclean then "memory-backend-memfd"
  else "memory-backend-ram"

/-- Embedding of `initMemDescFromMemoryInfo`: pick the backend object type
from host and guest flags, reconstruct the slots from the hypervisor's
reported memory device list, reject a non-positive remaining base size, and
otherwise install the base memory descriptor carrying the slots. -/
def initMemDescFromMemoryInfo (hugepages memclean : Bool) (uuid : String)
    (descMem : Int) (infos : List MemoryDeviceInfo) : Except String SGuestMem :=
  match collectMemSlots (memBackendObjType hugepages memclean) descMem infos with
  | .error e => .error e
  | .ok (memSize, memSlots) =>
    if memSize ≤ 0 then .error ("wrong memsize " ++ toString descMem)
    else .ok { initMemDesc hugepages memclean uuid memSize with memSlots := memSlots }

/-- Device badness test matching the rejection condition of
`initMemDescFromMemoryInfo`: not a `dimm`, or no id. -/
def isBadDev (i : MemoryDeviceInfo) : Bool :=
  i.type != "dimm" || i.data.id.isNone

/-! Sample inputs used by concrete counterexamples and witnesses. -/

/-- Sample non-VFIO NIC. -/
def sampleNic : SGuestNetwork :=
  ⟨"eth0", "00:16:3e:00:00:02", "10.0.0.2", "br0", "virtio"⟩

/-- Sample descriptor with one non-VFIO NIC. -/
def sampleStopDesc : GuestDesc :=
  { uuid := "u2", mem := 1024, cpu := 1, machine := "", bios := "", vdi := "",
    metadata := [], nics := [sampleNic], usbId := "usb1" }

/-- Sample macOS descriptor with empty machine type. -/
def c6MacDesc : GuestDesc :=
  { uuid := "g1", mem := 2048, cpu := 1, machine := "", bios := "", vdi := "",
    metadata := [("os_name", "macOS")], nics := [], usbId := "usb1" }

/-- Sample Linux descriptor with empty machine type. -/
def c6EmptyDesc : GuestDesc :=
  { uuid := "g2", mem := 2048, cpu := 1, machine := "", bios := "", vdi := "",
    metadata := [], nics := [], usbId := "usb1" }

/-- Sample aarch64 host. -/
def c6ArmHost : HostCaps :=
  { isAarch64 := true, hugepagesEnabled := false, isKvmSupport := true,
    isX86 := false, hugepageSizeKb := 2048 }

/-- Sample x86 host. -/
def c6X86Host : HostCaps :=
  { isAarch64 := false, hugepagesEnabled := false, isKvmSupport := true,
    isX86 := true, hugepageSizeKb := 2048 }

/-- Sample architecture strategy stub. -/
def c6Gen : Nat → GuestDesc → Except String CpuDesc :=
  fun n _ => .ok ⟨n, "tcg"⟩

/-- Sample Android descriptor. -/
def c8Desc : GuestDesc :=
  { uuid := "g3", mem := 2048, cpu := 1, machine := "", bios := "", vdi := "",
    metadata := [("os_name", "Android")], nics := [], usbId := "usb1" }

/-- Sample current-host command line: memory option plus dynamic vnc and
incoming options. -/
def c34Cur : List Tok :=
  [.opt "m", .arg "2048", .opt "vnc", .arg ":1",
   .opt "incoming", .arg "tcp:0.0.0.0:8902"]

/-- Sample source-host command line. -/
def c34Src : List Tok :=
  [.opt "m", .arg "4096", .opt "vnc", .arg ":9"]

/-- Unified result of the sample command lines. -/
def c34Out : List Tok :=
  [.opt "m", .arg "4096", .opt "vnc", .arg ":1",
   .opt "incoming", .arg "tcp:0.0.0.0:8902"]

/-- Kept options of the sample current command line. -/
def c34Ck : List QemuOption := [⟨"m", ["2048"]⟩]

/-- Dynamic options of the sample current command line. -/
def c34Cd : List QemuOption :=
  [⟨"vnc", [":1"]⟩, ⟨"incoming", ["tcp:0.0.0.0:8902"]⟩]

/-- Kept options of the sample source command line. -/
def c34Sk : List QemuOption := [⟨"m", ["4096"]⟩]

/-- Dynamic options of the sample source command line. -/
def c34Sd : List QemuOption := [⟨"vnc", [":9"]⟩]

/-- Sample well-formed reported memory device list: one 1 GiB dimm. -/
def c5OkInfos : List MemoryDeviceInfo :=
  [⟨"dimm", ⟨some "dimm0", 1073741824, "/objects/mem1"⟩⟩]

/-- Memory descriptor reconstructed from the sample device list against a
4096 MB configured memory. -/
def c5OkMd : SGuestMem :=
  { sizeMB := 3072,
    mem := ⟨"memory-backend-ram", "mem", [("size", "3072M")]⟩,
    memSlots := [⟨1024, ⟨"memory-backend-ram", "mem1", []⟩, ⟨"pc-dimm", "dimm0"⟩⟩] }

/-- Sample reported device list with an unsupported device type. -/
def c5BadInfos : List MemoryDeviceInfo :=
  [⟨"nvdimm", ⟨some "nv0", 1073741824, "/objects/mem2"⟩⟩]

/-- Sample reported device list whose dimm sizes consume the entire
configured memory. -/
def c5BigInfos : List MemoryDeviceInfo :=
  [⟨"dimm", ⟨some "dimm0", 2147483648, "/objects/mem1"⟩⟩]

/-! Helper lemmas shared by the claim theorems. -/

theorem filter_filter_self {α : Type} (p : α → Bool) (l : List α) :
    (l.filter p).filter p = l.filter p := by
  induction l with
  | nil => rfl
  | cons a as ih => cases h : p a <;> simp [List.filter_cons, h, ih]

theorem filter_compl_of_filter {α : Type} (p : α → Bool) (l : List α) :
    (l.filter p).filter (fun a => !(p a)) = [] := by
  induction l with
  | nil => rfl
  | cons a as ih => cases h : p a <;> simp [List.filter_cons, h, ih]

theorem filter_of_filter_compl {α : Type} (p : α → Bool) (l : List α) :
    (l.filter (fun a => !(p a))).filter p = [] := by
  induction l with
  | nil => rfl
  | cons a as ih => cases h : p a <;> simp [List.filter_cons, h, ih]

theorem strHeadAppend (a b : String) (c : Char) (h : a.data.head? = some c) :
    (a ++ b).data.head? = some c := by
  rw [String.data_append]
  cases hd : a.data with
  | nil => rw [hd] at h; cases h
  | cons x xs => rw [hd] at h; simpa using h

theorem listIsPrefixB_append (p l m : List Char) (h : listIsPrefixB p l = true) :
    listIsPrefixB p (l ++ m) = true := by
  induction p generalizing l with
  | nil => rfl
  | cons a as ih =>
    cases l with
    | nil => cases h
    | cons b bs =>
      simp only [listIsPrefixB, Bool.and_eq_true] at h
      simp only [List.cons_append, listIsPrefixB, Bool.and_eq_true]
      exact ⟨h.1, ih bs h.2⟩

theorem strStartsWithB_append (s t pre : String) (h : strStartsWithB s pre = true) :
    strStartsWithB (s ++ t) pre = true := by
  unfold strStartsWithB at h ⊢
  rw [String.data_append]
  exact listIsPrefixB_append _ _ _ h

theorem nicDownScriptFold (homeDir : String) (bridgeOf : String → String)
    (nics : List SGuestNetwork) (acc : List String) :
    nics.foldl
        (fun acc n =>
          if n.driver == NETWORK_DRIVER_VFIO then acc
          else acc ++ [nicDownScriptLine homeDir bridgeOf n]) acc
      = acc ++ (nics.filter (fun n => !(n.driver == NETWORK_DRIVER_VFIO))).map
          (nicDownScriptLine homeDir bridgeOf) := by
  induction nics generalizing acc with
  | nil => simp
  | cons n ns ih =>
    simp only [List.foldl_cons, List.filter_cons]
    cases hv : (n.driver == NETWORK_DRIVER_VFIO) <;> rw [ih] <;> simp

theorem nicDownScriptLines_eq (homeDir : String) (bridgeOf : String → String)
    (nics : List SGuestNetwork) :
    nicDownScriptLines homeDir bridgeOf nics
      = (nics.filter (fun n => !(n.driver == NETWORK_DRIVER_VFIO))).map
          (nicDownScriptLine homeDir bridgeOf) := by
  unfold nicDownScriptLines
  simpa using nicDownScriptFold homeDir bridgeOf nics []

theorem nicDownScriptLine_head (homeDir : String) (bridgeOf : String → String)
    (n : SGuestNetwork) (hh : homeDir.data.head? = some '/') :
    (nicDownScriptLine homeDir bridgeOf n).data.head? = some '/' := by
  unfold nicDownScriptLine getNicDownScriptPath
  exact strHeadAppend _ _ _ (strHeadAppend _ _ _ (strHeadAppend _ _ _
    (strHeadAppend _ _ _ (strHeadAppend _ _ _ (strHeadAppend _ _ _
      (strHeadAppend _ _ _ hh))))))

theorem stopScriptBody_no_slash (v p u : String) :
    ∀ s ∈ stopScriptBody v p u, s.data.head? ≠ some '/' := by
  intro s hs
  simp only [stopScriptBody, List.mem_cons, List.not_mem_nil, or_false] at hs
  rcases hs with rfl | rfl | rfl | rfl | rfl | rfl | rfl | rfl | rfl | rfl | rfl |
    rfl | rfl | rfl | rfl | rfl | rfl | rfl | rfl | rfl | rfl | rfl | rfl | rfl |
    rfl | rfl | rfl
  all_goals first
    | decide
    | (rw [strHeadAppend _ _ 'V' (by decide)]; decide)
    | (rw [strHeadAppend _ _ 'P' (by decide)]; decide)
    | (rw [strHeadAppend _ _ ' ' (strHeadAppend _ _ ' ' (by decide))]; decide)
    | (rw [strHeadAppend _ _ 'f' (strHeadAppend _ _ 'f' (by decide))]; decide)

theorem serializeCmdline_cons (o : QemuOption) (rest : List QemuOption) :
    serializeCmdline (o :: rest)
      = Tok.opt o.key :: (o.value.map Tok.arg ++ serializeCmdline rest) := by
  simp [serializeCmdline, serializeOpt]

theorem parseCmdlineAux_args (k : String) (acc vs : List String) (ts : List Tok) :
    parseCmdlineAux k acc (vs.map Tok.arg ++ ts) = parseCmdlineAux k (acc ++ vs) ts := by
  induction vs generalizing acc with
  | nil => simp
  | cons v vs ih =>
    simp only [List.map_cons, List.cons_append, parseCmdlineAux, List.append_eq]
    rw [ih]
    simp

theorem parseCmdlineAux_serialize (k : String) (acc : List String)
    (l : List QemuOption) :
    parseCmdlineAux k acc (serializeCmdline l) = ⟨k, acc⟩ :: l := by
  induction l generalizing k acc with
  | nil => rfl
  | cons o rest ih =>
    rw [serializeCmdline_cons]
    simp only [parseCmdlineAux]
    rw [parseCmdlineAux_args, ih]
    simp

theorem parseCmdlineTokens_serialize (l : List QemuOption) :
    parseCmdlineTokens (serializeCmdline l) = .ok l := by
  cases l with
  | nil => rfl
  | cons o rest =>
    rw [serializeCmdline_cons]
    simp only [parseCmdlineTokens]
    rw [parseCmdlineAux_args, parseCmdlineAux_serialize]
    simp

theorem parseCmdline_serialize (l : List QemuOption) :
    parseCmdline (serializeCmdline l)
      = .ok (l.filter (fun o => !(isDynamicOpt o)), l.filter isDynamicOpt) := by
  simp [parseCmdline, parseCmdlineTokens_serialize]

theorem parseCmdline_of_parts (sk cd : List QemuOption)
    (h1 : sk.filter (fun o => !(isDynamicOpt o)) = sk)
    (h2 : cd.filter isDynamicOpt = cd) :
    parseCmdline (serializeCmdline (sk ++ cd)) = .ok (sk, cd) := by
  rw [parseCmdline_serialize, List.filter_append, List.filter_append, h1, h2]
  rw [show cd.filter (fun o => !(isDynamicOpt o))
        = (cd.filter isDynamicOpt).filter (fun o => !(isDynamicOpt o)) from by rw [h2],
    filter_compl_of_filter]
  rw [show sk.filter isDynamicOpt
        = (sk.filter (fun o => !(isDynamicOpt o))).filter isDynamicOpt from by rw [h1],
    filter_of_filter_compl]
  simp

theorem unifyMigrateQemuCmdlineRaw_eq (cur src : List Tok) :
    unifyMigrateQemuCmdlineRaw cur src = src := by
  simp [unifyMigrateQemuCmdlineRaw, diffMain, patchApply, List.drop_length]

theorem parseCmdline_parts_stable (toks : List Tok) (k d : List QemuOption)
    (h : parseCmdline toks = .ok (k, d)) :
    k.filter (fun o => !(isDynamicOpt o)) = k ∧ d.filter isDynamicOpt = d := by
  unfold parseCmdline at h
  cases hps : parseCmdlineTokens toks with
  | error e => rw [hps] at h; cases h
  | ok cl =>
    rw [hps] at h
    injection h with h
    injection h with h1 h2
    exact ⟨by rw [← h1, filter_filter_self], by rw [← h2, filter_filter_self]⟩

theorem unifyMigrateQemuCmdline_ok (cur src : List Tok)
    (ck cd sk sd : List QemuOption)
    (hc : parseCmdline cur = .ok (ck, cd))
    (hs : parseCmdline src = .ok (sk, sd)) :
    unifyMigrateQemuCmdline cur src = .ok (serializeCmdline (sk ++ cd)) := by
  have hsk : sk.filter (fun o => !(isDynamicOpt o)) = sk :=
    (parseCmdline_parts_stable src sk sd hs).1
  unfold unifyMigrateQemuCmdline
  rw [hc, hs]
  dsimp only
  rw [unifyMigrateQemuCmdlineRaw_eq, parseCmdline_serialize, hsk]

theorem initMemDesc_sizeMB (hp mc : Bool) (uuid : String) (m : Int) :
    (initMemDesc hp mc uuid m).sizeMB = m := by
  cases hp <;> cases mc <;> simp [initMemDesc]

theorem collectMemSlots_ok (objType : String) (infos : List MemoryDeviceInfo) :
    ∀ (m m2 : Int) (slots : List SMemSlot),
      collectMemSlots objType m infos = .ok (m2, slots) →
      m2 = m - ((infos.map (fun i => ((i.data.size / 1024 / 1024 : Nat) : Int))).sum)
        ∧ slots.map (fun s => (s.sizeMB : Int))
            = infos.map (fun i => ((i.data.size / 1024 / 1024 : Nat) : Int)) := by
  induction infos with
  | nil =>
    intro m m2 slots h
    simp only [collectMemSlots, Except.ok.injEq, Prod.mk.injEq] at h
    obtain ⟨rfl, rfl⟩ := h
    simp
  | cons info rest ih =>
    intro m m2 slots h
    simp only [collectMemSlots] at h
    cases hid : info.data.id with
    | none => rw [hid] at h; simp at h
    | some devId =>
      rw [hid] at h
      cases ht : (info.type != "dimm") with
      | true => rw [ht] at h; simp at h
      | false =>
        rw [ht] at h
        simp only [Bool.false_eq_true, if_false] at h
        cases hrec : collectMemSlots objType
            (m - ((info.data.size / 1024 / 1024 : Nat) : Int)) rest with
        | error e => rw [hrec] at h; simp at h
        | ok pr =>
          obtain ⟨m3, slots3⟩ := pr
          rw [hrec] at h
          simp only [Except.ok.injEq, Prod.mk.injEq] at h
          obtain ⟨rfl, rfl⟩ := h
          have hih := ih _ _ _ hrec
          constructor
          · rw [List.map_cons, List.sum_cons, hih.1]
            omega
          · rw [List.map_cons, List.map_cons, hih.2]

theorem collectMemSlots_bad (objType : String) :
    ∀ (infos : List MemoryDeviceInfo) (m : Int),
      (∃ i ∈ infos, isBadDev i = true) →
      ∃ e, collectMemSlots objType m infos = .error e := by
  intro infos
  induction infos with
  | nil =>
    intro m hbad
    obtain ⟨i, hi, _⟩ := hbad
    cases hi
  | cons info rest ih =>
    intro m hbad
    simp only [collectMemSlots]
    cases hid : info.data.id with
    | none => exact ⟨_, rfl⟩
    | some devId =>
      dsimp only
      cases ht : (info.type != "dimm") with
      | true =>
        refine ⟨"unsupported memory device type " ++ info.type, ?_⟩
        simp
      | false =>
        have hrest : ∃ i ∈ rest, isBadDev i = true := by
          obtain ⟨i, hi, hb⟩ := hbad
          cases hi with
          | head => simp [isBadDev, ht, hid] at hb
          | tail _ htl => exact ⟨i, htl, hb⟩
        obtain ⟨e, he⟩ := ih (m - ((info.data.size / 1024 / 1024 : Nat) : Int)) hrest
        refine ⟨e, ?_⟩
        simp only [Bool.false_eq_true, if_false]
        rw [he]

/-! Claim theorems. -/

/-- C1: `extraOptions` iterates the descriptor's `ExtraOptions` Go map, whose
iteration order is unspecified and randomised per `range`; two iteration
orders of the same two-entry map (witnessed by the permutation) produce two
different segment strings, so the segment — and hence the start script — is
not byte-identical across calls, contradicting the rendering-determinism
property the specification states. -/
theorem extraOptions_iteration_order_dependent :
    List.Perm
        [("a", JSONVal.scalar (JSONScalar.str "1")),
         ("b", JSONVal.scalar (JSONScalar.str "2"))]
        [("b", JSONVal.scalar (JSONScalar.str "2")),
         ("a", JSONVal.scalar (JSONScalar.str "1"))]
    ∧ extraOptions
        [("a", JSONVal.scalar (JSONScalar.str "1")),
         ("b", JSONVal.scalar (JSONScalar.str "2"))]
      ≠ extraOptions
        [("b", JSONVal.scalar (JSONScalar.str "2")),
         ("a", JSONVal.scalar (JSONScalar.str "1"))] :=
  ⟨List.Perm.swap _ _ _, by decide⟩

/-- C2 counterexample: in the generated stop script for a guest with one
non-VFIO NIC, the umount command sits at index 23 while the NIC down-script
invocation sits at index 27, so the down-script invocation does NOT precede
the umount loop as the claim states. -/
theorem generateStopScript_down_not_before_umount_cex :
    (generateStopScript "/v" "/p" "/h" (fun _ => "br0") sampleStopDesc)[23]?
        = some "    umount $d"
    ∧ (generateStopScript "/v" "/p" "/h" (fun _ => "br0") sampleStopDesc)[27]?
        = some "/h/if-down-br0-eth0.sh eth0"
    ∧ ¬((27 : Nat) < 23) := by
  decide

/-- C2 amended: in the generated stop script, every occurrence of the umount
command precedes every NIC down-script invocation — the hugepage directories
are unmounted BEFORE the down-scripts run (the reverse of the claimed
order); stated for guests whose home directory is an absolute path. -/
theorem generateStopScript_umount_before_down (v p homeDir : String)
    (bridgeOf : String → String) (d : GuestDesc) (i j : Nat) (s : String)
    (hh : homeDir.data.head? = some '/')
    (hi : (generateStopScript v p homeDir bridgeOf d)[i]? = some "    umount $d")
    (hj : (generateStopScript v p homeDir bridgeOf d)[j]? = some s)
    (hsd : s ∈ nicDownScriptLines homeDir bridgeOf d.nics) :
    i < j := by
  have hslash : s.data.head? = some '/' := by
    rw [nicDownScriptLines_eq] at hsd
    obtain ⟨n, hn, rfl⟩ := List.mem_map.mp hsd
    exact nicDownScriptLine_head homeDir bridgeOf n hh
  unfold generateStopScript at hi hj
  have hBlen : i < (stopScriptBody v p d.uuid).length := by
    by_contra hge
    push_neg at hge
    rw [List.getElem?_append_right hge] at hi
    have hmem : "    umount $d" ∈ nicDownScriptLines homeDir bridgeOf d.nics :=
      List.getElem?_mem hi
    rw [nicDownScriptLines_eq] at hmem
    obtain ⟨n, hn, he⟩ := List.mem_map.mp hmem
    have hhd : ("    umount $d" : String).data.head? = some '/' := by
      rw [← he]
      exact nicDownScriptLine_head homeDir bridgeOf n hh
    exact absurd hhd (by decide)
  have hjlen : (stopScriptBody v p d.uuid).length ≤ j := by
    by_contra hlt
    push_neg at hlt
    rw [List.getElem?_append_left hlt] at hj
    exact stopScriptBody_no_slash v p d.uuid s (List.getElem?_mem hj) hslash
  omega

/-- C2 amended witness: the umount line at index 23 precedes the down-script
line at index 27 in the sample stop script. -/
theorem generateStopScript_umount_before_down_witness :
    ("/h" : String).data.head? = some '/' ∧ (23 : Nat) < 27 :=
  ⟨by decide,
   generateStopScript_umount_before_down "/v" "/p" "/h" (fun _ => "br0")
     sampleStopDesc 23 27 "/h/if-down-br0-eth0.sh eth0" (by decide) (by decide)
     (by decide) (by decide)⟩

/-- C3: command-line unification is idempotent — unifying an already-unified
command line with the same source command line returns it unchanged. -/
theorem unifyMigrateQemuCmdline_idempotent (cur src out : List Tok)
    (h : unifyMigrateQemuCmdline cur src = .ok out) :
    unifyMigrateQemuCmdline out src = .ok out := by
  cases hpc : parseCmdline cur with
  | error e =>
    unfold unifyMigrateQemuCmdline at h
    rw [hpc] at h
    simp at h
  | ok prc =>
    obtain ⟨ck, cd⟩ := prc
    cases hps : parseCmdline src with
    | error e =>
      unfold unifyMigrateQemuCmdline at h
      rw [hpc, hps] at h
      simp at h
    | ok prs =>
      obtain ⟨sk, sd⟩ := prs
      have hout : out = serializeCmdline (sk ++ cd) := by
        have h2 := unifyMigrateQemuCmdline_ok cur src ck cd sk sd hpc hps
        rw [h] at h2
        injection h2
      subst hout
      have hstc := parseCmdline_parts_stable cur ck cd hpc
      have hsts := parseCmdline_parts_stable src sk sd hps
      have hpo : parseCmdline (serializeCmdline (sk ++ cd)) = .ok (sk, cd) :=
        parseCmdline_of_parts sk cd hsts.1 hstc.2
      exact unifyMigrateQemuCmdline_ok _ src sk cd sk sd hpo hps

/-- C3 witness: the sample unification succeeds and unifying its result again
with the same source is the identity. -/
theorem unifyMigrateQemuCmdline_idempotent_witness :
    unifyMigrateQemuCmdline c34Cur c34Src = .ok c34Out
    ∧ unifyMigrateQemuCmdline c34Out c34Src = .ok c34Out :=
  ⟨rfl, unifyMigrateQemuCmdline_idempotent c34Cur c34Src c34Out rfl⟩

/-- C4: the unified command line is the source's kept options followed by
the current host's filtered dynamic options, and re-parsing it finds exactly
the current host's dynamic options — the source host's dynamic options are
dropped, never carried over. -/
theorem unifyMigrateQemuCmdline_dynamic_from_current (cur src : List Tok)
    (ck cd sk sd : List QemuOption)
    (hc : parseCmdline cur = .ok (ck, cd))
    (hs : parseCmdline src = .ok (sk, sd)) :
    unifyMigrateQemuCmdline cur src = .ok (serializeCmdline (sk ++ cd))
    ∧ parseCmdline (serializeCmdline (sk ++ cd)) = .ok (sk, cd) :=
  ⟨unifyMigrateQemuCmdline_ok cur src ck cd sk sd hc hs,
   parseCmdline_of_parts sk cd (parseCmdline_parts_stable src sk sd hs).1
     (parseCmdline_parts_stable cur ck cd hc).2⟩

/-- C4 witness: on the sample command lines the unified output carries the
current host's vnc and incoming options and the source's kept options. -/
theorem unifyMigrateQemuCmdline_dynamic_from_current_witness :
    unifyMigrateQemuCmdline c34Cur c34Src = .ok (serializeCmdline (c34Sk ++ c34Cd))
    ∧ parseCmdline (serializeCmdline (c34Sk ++ c34Cd)) = .ok (c34Sk, c34Cd) :=
  unifyMigrateQemuCmdline_dynamic_from_current c34Cur c34Src c34Ck c34Cd c34Sk
    c34Sd rfl rfl

/-- C5: reconstructing the memory descriptor from the hypervisor's reported
memory device list preserves the memory sum — slot sizes plus the base
memory object size equal the configured memory and the base size is
positive; a device that is not a `dimm` or lacks an id is a fatal error, and
a device list whose dimm sizes consume the entire configured memory (leaving
no positive base object) is a fatal error instead of a memory descriptor. -/
theorem initMemDescFromMemoryInfo_spec (hp mc : Bool) (uuid : String)
    (descMem : Int) (infos : List MemoryDeviceInfo) :
    (∀ md, initMemDescFromMemoryInfo hp mc uuid descMem infos = .ok md →
        (md.memSlots.map (fun s => (s.sizeMB : Int))).sum + md.sizeMB = descMem
          ∧ 0 < md.sizeMB)
    ∧ ((∃ i ∈ infos, isBadDev i = true) →
        ∃ e, initMemDescFromMemoryInfo hp mc uuid descMem infos = .error e)
    ∧ (descMem ≤ (infos.map (fun i => ((i.data.size / 1024 / 1024 : Nat) : Int))).sum →
        ∃ e, initMemDescFromMemoryInfo hp mc uuid descMem infos = .error e) := by
  refine ⟨?_, ?_, ?_⟩
  · intro md h
    unfold initMemDescFromMemoryInfo at h
    cases hcol : collectMemSlots (memBackendObjType hp mc) descMem infos with
    | error e => rw [hcol] at h; simp at h
    | ok pr =>
      obtain ⟨m, slots⟩ := pr
      rw [hcol] at h
      dsimp only at h
      by_cases hm : m ≤ 0
      · rw [if_pos hm] at h; simp at h
      · rw [if_neg hm] at h
        simp only [Except.ok.injEq] at h
        subst h
        have hspec := collectMemSlots_ok (memBackendObjType hp mc) infos
          descMem m slots hcol
        constructor
        · show (slots.map (fun s => (s.sizeMB : Int))).sum
              + (initMemDesc hp mc uuid m).sizeMB = descMem
          rw [initMemDesc_sizeMB, hspec.2, hspec.1]
          omega
        · show 0 < (initMemDesc hp mc uuid m).sizeMB
          rw [initMemDesc_sizeMB]
          omega
  · intro hbad
    obtain ⟨e, he⟩ := collectMemSlots_bad (memBackendObjType hp mc) infos descMem hbad
    exact ⟨e, by unfold initMemDescFromMemoryInfo; rw [he]⟩
  · intro hsum
    cases hcol : collectMemSlots (memBackendObjType hp mc) descMem infos with
    | error e => exact ⟨e, by unfold initMemDescFromMemoryInfo; rw [hcol]⟩
    | ok pr =>
      obtain ⟨m, slots⟩ := pr
      have hspec := collectMemSlots_ok (memBackendObjType hp mc) infos
        descMem m slots hcol
      have hm : m ≤ 0 := by
        rw [hspec.1]
        omega
      exact ⟨_, by
        unfold initMemDescFromMemoryInfo
        rw [hcol]
        dsimp only
        rw [if_pos hm]⟩

/-- C5 witness: a 1 GiB dimm against 4096 MB reconstructs with slot sum 1024
plus base 3072; an `nvdimm` device errors; a 2 GiB dimm against 1024 MB
errors. -/
theorem initMemDescFromMemoryInfo_spec_witness :
    ((c5OkMd.memSlots.map (fun s => (s.sizeMB : Int))).sum + c5OkMd.sizeMB = 4096
      ∧ (0 : Int) < c5OkMd.sizeMB)
    ∧ (∃ e, initMemDescFromMemoryInfo false false "u" 4096 c5BadInfos = .error e)
    ∧ (∃ e, initMemDescFromMemoryInfo false false "u" 1024 c5BigInfos = .error e) :=
  ⟨(initMemDescFromMemoryInfo_spec false false "u" 4096 c5OkInfos).1 c5OkMd rfl,
   (initMemDescFromMemoryInfo_spec false false "u" 4096 c5BadInfos).2.1
     ⟨⟨"nvdimm", ⟨some "nv0", 1073741824, "/objects/mem2"⟩⟩, by decide, by decide⟩,
   (initMemDescFromMemoryInfo_spec false false "u" 1024 c5BigInfos).2.2 (by decide)⟩

/-- C6 counterexample: a macOS guest on an aarch64 host does NOT end with
machine type Q35 — the aarch64 fix-up runs after the macOS fix-up and
rewrites Q35 to ARM-virt, so the claim's unconditional "macOS guest gets
Q35" fails. -/
theorem fixGuestMachineType_macos_aarch64_cex :
    getOsName c6MacDesc = OS_NAME_MACOS
    ∧ (fixGuestMachineType c6ArmHost c6MacDesc).machine ≠ VM_MACHINE_TYPE_Q35
    ∧ (fixGuestMachineType c6ArmHost c6MacDesc).machine = VM_MACHINE_TYPE_ARM_VIRT := by
  decide

/-- C6 amended: after the fix-up an aarch64 host with empty machine type
yields ARM-virt with UEFI; a macOS guest on a non-aarch64 host yields Q35
with UEFI (on aarch64 hosts the ARM-virt coercion overrides it); and
`initCpuDesc` runs the fix-up first, generating the CPU descriptor from the
already-fixed descriptor. -/
theorem fixGuestMachineType_spec (host : HostCaps) (d : GuestDesc)
    (gen : Nat → GuestDesc → Except String CpuDesc) :
    (host.isAarch64 = true → d.machine = "" →
      ((fixGuestMachineType host d).machine = VM_MACHINE_TYPE_ARM_VIRT
        ∧ (fixGuestMachineType host d).bios = BIOS_UEFI))
    ∧ (host.isAarch64 = false → getOsName d = OS_NAME_MACOS →
      ((fixGuestMachineType host d).machine = VM_MACHINE_TYPE_Q35
        ∧ (fixGuestMachineType host d).bios = BIOS_UEFI))
    ∧ (∀ out c, initCpuDesc gen host d = .ok (out, c) →
        out = fixGuestMachineType host d
          ∧ gen (fixGuestMachineType host d).cpu (fixGuestMachineType host d) = .ok c) := by
  refine ⟨?_, ?_, ?_⟩
  · intro ha hm
    cases hos : (getOsName d == OS_NAME_MACOS) <;>
      simp [fixGuestMachineType, ha, hos, hm, VM_MACHINE_TYPE_Q35,
        VM_MACHINE_TYPE_PC]
  · intro ha hos
    simp [fixGuestMachineType, ha, hos]
  · intro out c h
    unfold initCpuDesc at h
    dsimp only at h
    cases hg : gen (fixGuestMachineType host d).cpu (fixGuestMachineType host d) with
    | error e => rw [hg] at h; simp at h
    | ok c2 =>
      rw [hg] at h
      simp only [Except.ok.injEq, Prod.mk.injEq] at h
      obtain ⟨h1, h2⟩ := h
      subst h1
      subst h2
      exact ⟨rfl, rfl⟩

/-- C6 amended witness: the empty-machine descriptor on the aarch64 host,
the macOS descriptor on the x86 host, and the fix-up-before-strategy order
at the sample strategy stub. -/
theorem fixGuestMachineType_spec_witness :
    ((fixGuestMachineType c6ArmHost c6EmptyDesc).machine = VM_MACHINE_TYPE_ARM_VIRT
      ∧ (fixGuestMachineType c6ArmHost c6EmptyDesc).bios = BIOS_UEFI)
    ∧ ((fixGuestMachineType c6X86Host c6MacDesc).machine = VM_MACHINE_TYPE_Q35
      ∧ (fixGuestMachineType c6X86Host c6MacDesc).bios = BIOS_UEFI)
    ∧ (fixGuestMachineType c6ArmHost c6EmptyDesc = fixGuestMachineType c6ArmHost c6EmptyDesc
      ∧ c6Gen (fixGuestMachineType c6ArmHost c6EmptyDesc).cpu
          (fixGuestMachineType c6ArmHost c6EmptyDesc) = .ok ⟨1, "tcg"⟩) :=
  ⟨(fixGuestMachineType_spec c6ArmHost c6EmptyDesc c6Gen).1 rfl rfl,
   (fixGuestMachineType_spec c6X86Host c6MacDesc c6Gen).2.1 rfl (by decide),
   (fixGuestMachineType_spec c6ArmHost c6EmptyDesc c6Gen).2.2
     (fixGuestMachineType c6ArmHost c6EmptyDesc) ⟨1, "tcg"⟩ rfl⟩

/-- C7 counterexample: a migration-incoming launch that also finds a state
file at script run time composes a command with TWO incoming clauses (the
TCP listen form from the rendered options and the exec form appended by the
shell), refuting the claim that the two forms never co-occur. -/
theorem composedQemuCommand_both_incoming_cex :
    countIncoming
        (composedQemuCommand ["-m 2048"] true 4396 StateFileKind.plainFile) = 2 := by
  decide

/-- C7 amended: when the rendered base options carry no incoming clause and
exactly one of the two conditions holds — a migration-incoming launch, or a
state file found at run time — the composed command contains exactly one
incoming clause; when both hold, both clauses appear (see the
counterexample), so the exactly-one guarantee needs the exclusivity
hypothesis. -/
theorem composedQemuCommand_incoming_unique (baseOpts : List String)
    (needMigrate : Bool) (port : Nat) (sf : StateFileKind)
    (hbase : ∀ s ∈ baseOpts, isIncomingClause s = false)
    (hone : needMigrate = true ∨ sf ≠ StateFileKind.noFile)
    (hnotboth : ¬(needMigrate = true ∧ sf ≠ StateFileKind.noFile)) :
    countIncoming (composedQemuCommand baseOpts needMigrate port sf) = 1 := by
  have hb : baseOpts.filter isIncomingClause = [] := by
    rw [List.filter_eq_nil_iff]
    intro s hs
    simp [hbase s hs]
  have htcp : isIncomingClause ("-incoming tcp:0.0.0.0:" ++ toString port) = true := by
    unfold isIncomingClause
    rw [strStartsWithB_append _ _ _ (by decide)]
    rfl
  unfold composedQemuCommand generateStartOptions incomingExecClause countIncoming
  cases needMigrate with
  | false =>
    cases sf with
    | noFile =>
      rcases hone with h | h
      · cases h
      · exact absurd rfl h
    | dirWithContent => simp [List.filter_append, hb]; decide
    | plainFile => simp [List.filter_append, hb]; decide
  | true =>
    cases sf with
    | noFile => simp [List.filter_append, hb, htcp]
    | dirWithContent => exact absurd ⟨rfl, by simp⟩ hnotboth
    | plainFile => exact absurd ⟨rfl, by simp⟩ hnotboth

/-- C7 amended witness: a pure migration-incoming launch with no state file
gets exactly one incoming clause. -/
theorem composedQemuCommand_incoming_unique_witness :
    countIncoming (composedQemuCommand ["-m 2048"] true 4396 StateFileKind.noFile) = 1 :=
  composedQemuCommand_incoming_unique ["-m 2048"] true 4396 StateFileKind.noFile
    (by decide) (Or.inl rfl) (by simp)

/-- C8: on a non-aarch64 host an Android guest's USB input device list
contains usb-mouse and excludes usb-tablet; on an aarch64 host the device
list is always the fixed usb-tablet plus usb-kbd pair bound to the guest's
USB controller id, regardless of OS. -/
theorem usbInputDevices_android_and_aarch64 (d : GuestDesc) :
    (getOsName d = OS_NAME_ANDROID →
      ("usb-mouse" ∈ usbInputDevices false d
        ∧ ¬("usb-tablet" ∈ usbInputDevices false d)))
    ∧ usbInputDevices true d
        = ["usb-tablet,id=input0,bus=" ++ d.usbId ++ ".0,port=1",
           "usb-kbd,id=input1,bus=" ++ d.usbId ++ ".0,port=2"] := by
  constructor
  · intro hos
    have hand : (getOsName d == OS_NAME_ANDROID) = true := by simp [hos]
    have hsplit : usbInputDevices false d
        = (if !(getOsDistribution d == OS_NAME_OPENWRT
                || getOsDistribution d == OS_NAME_CIRROS)
              && !IsOldWindows d && !isWindows10 d && !disableUsbKbd d then
            ["usb-kbd"]
           else [])
          ++ (if getOsName d == OS_NAME_ANDROID then ["usb-mouse"]
              else if !IsOldWindows d then ["usb-tablet"] else []) := rfl
    rw [hand] at hsplit
    cases hcond : (!(getOsDistribution d == OS_NAME_OPENWRT
          || getOsDistribution d == OS_NAME_CIRROS)
        && !IsOldWindows d && !isWindows10 d && !disableUsbKbd d) <;>
      rw [hcond] at hsplit <;> simp at hsplit <;> rw [hsplit] <;> decide
  · rfl

/-- C8 witness: the sample Android descriptor on a non-aarch64 host. -/
theorem usbInputDevices_android_and_aarch64_witness :
    "usb-mouse" ∈ usbInputDevices false c8Desc
    ∧ ¬("usb-tablet" ∈ usbInputDevices false c8Desc) :=
  (usbInputDevices_android_and_aarch64 c8Desc).1 (by decide)

/-- C9: when the runtime overrides carry qemu version "latest", the version
is cleared before the lookup, the hypervisor binary resolves through the
default (empty-version) lookup, the resolved path does not contain the
literal "latest", and the start script's DEFAULT_QEMU_CMD line carries that
resolved path. -/
theorem resolveQemuCmd_latest_uses_default (installed : List String)
    (defaultVer : String) (homeDir : String) (bridgeOf : String → String)
    (d : GuestDesc) (host : HostCaps) (vncPort : Int) (vfp pfp sfp : String)
    (ds ss : List String) (dk : Bool) :
    selectQemuVersion (some "latest") defaultVer = ""
    ∧ resolveQemuCmd installed (selectQemuVersion (some "latest") defaultVer)
        = getQemu installed ""
    ∧ strContainsB
        (resolveQemuCmd installed (selectQemuVersion (some "latest") defaultVer))
        "latest" = false
    ∧ ("DEFAULT_QEMU_CMD=\x27"
          ++ resolveQemuCmd installed (selectQemuVersion (some "latest") defaultVer)
          ++ "\x27")
        ∈ generateStartScriptLines homeDir bridgeOf d host vncPort vfp pfp sfp
            ds ss installed (some "latest") defaultVer dk := by
  have hsel : selectQemuVersion (some "latest") defaultVer = "" := by
    simp [selectQemuVersion]
  have hg : getQemu installed "" = "/usr/bin/qemu-system-x86_64" := by
    simp [getQemu]
  have hres : resolveQemuCmd installed "" = getQemu installed "" := by
    unfold resolveQemuCmd
    rw [hg]
    decide
  refine ⟨hsel, ?_, ?_, ?_⟩
  · rw [hsel, hres]
  · rw [hsel, hres, hg]
    decide
  · unfold generateStartScriptLines
    simp [List.mem_append]

/-- C10: the NIC down-script loop shared by start and stop script
generation emits exactly one invocation line per non-VFIO NIC, in
descriptor order, skipping every VFIO NIC; the start script begins with
these lines and the stop script ends with them. -/
theorem nicDownScriptLines_cover_non_vfio (homeDir : String)
    (bridgeOf : String → String) (d : GuestDesc) (host : HostCaps)
    (vncPort : Int) (vfp pfp sfp : String) (ds ss installed : List String)
    (dv : Option String) (dfv : String) (dk : Bool) :
    nicDownScriptLines homeDir bridgeOf d.nics
        = (d.nics.filter (fun n => !(n.driver == NETWORK_DRIVER_VFIO))).map
            (nicDownScriptLine homeDir bridgeOf)
    ∧ nicDownScriptLines homeDir bridgeOf d.nics
        <+: generateStartScriptLines homeDir bridgeOf d host vncPort vfp pfp sfp
              ds ss installed dv dfv dk
    ∧ nicDownScriptLines homeDir bridgeOf d.nics
        <:+ generateStopScript vfp pfp homeDir bridgeOf d := by
  refine ⟨nicDownScriptLines_eq homeDir bridgeOf d.nics, ?_, ?_⟩
  · unfold generateStartScriptLines
    simp only [List.append_assoc]
    exact List.prefix_append _ _
  · unfold generateStopScript
    exact List.suffix_append _ _

end GuestMan
